import Mathlib

/-!
Verification development for the artReCycleGAN repository.

The repository implements a CycleGAN training engine in TensorFlow:
`data.py` (dataset file lists and input pipeline), `nets.py` (network
topologies), `models.py` (composite model and training step),
`artReCycle.py` (CLI and training loop).

This file shallowly embeds the relevant code paths: pure Python logic is
translated to Lean functions, exceptional exits become `Except`, file
reading is a function parameter, and TensorFlow layer semantics are
modelled on shapes. The building-block layers of `layers.py` are not part
of the sources; where their behaviour matters it is modelled from the
spec and marked as such.
-/

namespace ArtReCycle

/-! ## data.py -/

/-- The `datasets` dict of `data.py`: supported dataset name ↦ info file. -/
def datasets : List (String × String) := [
    ("sisley", "../datasets/art/Alfred Sisley/dataset.txt"),
    ("guillaumin", "../datasets/art/Armand Guillaumin/dataset.txt"),
    ("caravaggio", "../datasets/art/Caravaggio/dataset.txt"),
    ("monet", "../datasets/art/Claude Monet/dataset.txt"),
    ("manet", "../datasets/art/Edouard Manet/dataset.txt"),
    ("caillebotte", "../datasets/art/Gustave Caillebotte/dataset.txt"),
    ("signac", "../datasets/art/Paul Signac/dataset.txt"),
    ("vangogh", "../datasets/art/Vincent van Gogh/dataset.txt"),
    ("foto", "../datasets/foto/dataset.txt"),
    ("summer", "../datasets/summer/dataset.txt"),
    ("winter", "../datasets/winter/dataset.txt")]

/-- The names of the supported datasets (keys of `datasets`). -/
def datasetNames : List String := datasets.map Prod.fst

/-- `os.path.dirname`: everything before the last `/` (empty if none). -/
def dirname (p : String) : String :=
  let r := p.toList.reverse.dropWhile (fun c => c ≠ '/')
  String.mk (r.drop 1).reverse

/-- `os.path.join dir f` as used in `data.py` (relative second component). -/
def joinPath (d f : String) : String :=
  if d = "" then f else d ++ "/" ++ f

/-- The value of Python's `split_i` after the loop
`for split_i in range(len(files)): if len(files[split_i]) == 0: break`:
the index of the first empty line if one exists, otherwise the last index;
`none` models the `NameError` when `files` is empty (loop body never ran,
`split_i` unbound). -/
def pySplitIndex : List String → Option Nat
  | [] => none
  | f :: fs =>
    if f.length == 0 then some 0
    else
      match pySplitIndex fs with
      | none => some 0
      | some i => some (i + 1)

/-- `data._dataset_files name split`. The file system is the parameter
`readLines`, mapping an info-file path to its `splitlines()` result.
Returns the list of joined file paths and their count, or the raised
error. -/
def dataset_files (name split : String) (readLines : String → List String) :
    Except String (List String × Nat) :=
  if ¬ (name ∈ datasetNames) ∨ ¬ (split ∈ ["train", "test"]) then
    .error "ValueError: Illegal dataset specification"
  else
    match datasets.lookup name with
    | none => .error "KeyError"
    | some info_file =>
      let dataset_dir := dirname info_file
      let files := readLines info_file
      match pySplitIndex files with
      | none => .error "NameError: name split_i is not defined"
      | some split_i =>
        let files := if split = "train" then files.take split_i
                     else files.drop (split_i + 1)
        let files := files.map (joinPath dataset_dir)
        .ok (files, files.length)

/-- The batch-size selection of `data.load`:
`if not batch or batch < 1 or batch > size: batch = size`.
`none` models the Python `None` default; `not batch` is truthiness
(`None` or `0`). -/
def effectiveBatch (batch : Option Int) (size : Nat) : Nat :=
  match batch with
  | none => size
  | some b => if b == 0 || b < 1 || b > (size : Int) then size else b.toNat

/-- `tf.data.Dataset.batch k`: group consecutive elements into chunks of
size `k` (last chunk possibly smaller). -/
def batchChunks : Nat → List α → List (List α)
  | 0, _ => []
  | _ + 1, [] => []
  | k + 1, x :: xs =>
      (x :: xs).take (k + 1) :: batchChunks (k + 1) ((x :: xs).drop (k + 1))
  termination_by _ xs => xs.length
  decreasing_by
    simp only [List.length_drop, List.length_cons]
    omega

/-- The batching stage of `data.load`'s input pipeline applied to the
(already shuffled and decoded) list of images of the selected split. -/
def loadBatched (batch : Option Int) (images : List α) : List (List α) :=
  batchChunks (effectiveBatch batch images.length) images

theorem pySplitIndex_ne_none (files : List String) (h : files ≠ []) :
    pySplitIndex files ≠ none := by
  match files with
  | [] => exact absurd rfl h
  | f :: fs =>
    rw [pySplitIndex]
    by_cases hf : f.length == 0
    · simp [hf]
    · simp only [hf, if_false]
      cases pySplitIndex fs <;> simp

theorem pySplitIndex_no_empty (files : List String) (hne : files ≠ [])
    (hfull : ∀ f ∈ files, f ≠ "") :
    pySplitIndex files = some (files.length - 1) := by
  induction files with
  | nil => exact absurd rfl hne
  | cons f fs ih =>
    have hf : f ≠ "" := hfull f (List.mem_cons_self f fs)
    have hflen : (f.length == 0) = false := by
      simp only [beq_eq_false_iff_ne, ne_eq]
      intro hc
      exact hf (String.ext (List.length_eq_zero.mp hc))
    rw [pySplitIndex, hflen]
    cases fs with
    | nil => rfl
    | cons g gs =>
      rw [ih (by simp) (fun x hx => hfull x (List.mem_cons_of_mem f hx))]
      simp [List.length_cons]

theorem batchChunks_self (xs : List α) (h : xs ≠ []) :
    batchChunks xs.length xs = [xs] := by
  match xs with
  | [] => exact absurd rfl h
  | x :: rest =>
    show batchChunks (rest.length + 1) (x :: rest) = [x :: rest]
    rw [batchChunks]
    have h1 : (x :: rest).take (rest.length + 1) = x :: rest := by
      rw [show rest.length + 1 = (x :: rest).length from rfl, List.take_length]
    have h2 : (x :: rest).drop (rest.length + 1) = [] := by
      rw [show rest.length + 1 = (x :: rest).length from rfl, List.drop_length]
    rw [h1, h2, batchChunks]

theorem dropLast_eq_take_sub_one (xs : List α) :
    xs.dropLast = xs.take (xs.length - 1) := by
  induction xs with
  | nil => rfl
  | cons x rest ih =>
    cases rest with
    | nil => rfl
    | cons y ys =>
      simp only [List.dropLast_cons₂, List.length_cons, Nat.add_sub_cancel]
      rw [List.take_succ_cons]
      have := ih
      simp only [List.length_cons, Nat.add_sub_cancel] at this
      rw [this]

/-- C7: for every dataset name outside the supported names, and for every
split other than `train`/`test`, `_dataset_files` raises a descriptive
`ValueError`; the result does not depend on the file system (no file is
read), and the request is never coerced to a valid one. -/
theorem dataset_files_invalid_raises (name split : String)
    (readLines : String → List String)
    (h : name ∉ datasetNames ∨ split ∉ ["train", "test"]) :
    dataset_files name split readLines =
      .error "ValueError: Illegal dataset specification" := by
  rw [dataset_files, if_pos]
  rcases h with h | h
  · exact Or.inl h
  · exact Or.inr h

theorem dataset_files_invalid_raises_witness :
    ("unknowndataset" ∉ datasetNames ∨ "train" ∉ ["train", "test"]) ∧
    dataset_files "unknowndataset" "train" (fun _ => ["a.jpg"]) =
      .error "ValueError: Illegal dataset specification" :=
  ⟨Or.inl (by decide),
   dataset_files_invalid_raises "unknowndataset" "train" (fun _ => ["a.jpg"])
     (Or.inl (by decide))⟩

/-- C10: when the info file is non-empty but has no empty line,
`_dataset_files` raises no error: the last listed file is treated as the
separator, `train` silently gets all files but the last, and `test` gets
the empty list. -/
theorem dataset_files_no_separator (name info : String)
    (readLines : String → List String)
    (hmem : name ∈ datasetNames)
    (hname : datasets.lookup name = some info)
    (hne : readLines info ≠ [])
    (hfull : ∀ f ∈ readLines info, f ≠ "") :
    dataset_files name "train" readLines =
      .ok (((readLines info).dropLast).map (joinPath (dirname info)),
           (readLines info).length - 1) ∧
    dataset_files name "test" readLines = .ok ([], 0) := by
  have hsplit := pySplitIndex_no_empty (readLines info) hne hfull
  constructor
  · rw [dataset_files, if_neg (by simp [hmem])]
    simp only [hname, hsplit, reduceIte]
    rw [← dropLast_eq_take_sub_one]
    simp [List.length_dropLast]
  · rw [dataset_files, if_neg (by simp [hmem])]
    simp only [hname, hsplit, reduceIte]
    rw [List.drop_eq_nil_of_le (by omega)]
    simp

theorem dataset_files_no_separator_witness :
    ("monet" ∈ datasetNames ∧
     datasets.lookup "monet" = some "../datasets/art/Claude Monet/dataset.txt" ∧
     (fun (_ : String) => ["a.jpg", "b.jpg"]) "../datasets/art/Claude Monet/dataset.txt" ≠ [] ∧
     (∀ f ∈ (fun (_ : String) => ["a.jpg", "b.jpg"]) "../datasets/art/Claude Monet/dataset.txt", f ≠ "")) ∧
    dataset_files "monet" "train" (fun _ => ["a.jpg", "b.jpg"]) =
      .ok (["../datasets/art/Claude Monet/a.jpg"], 1) ∧
    dataset_files "monet" "test" (fun _ => ["a.jpg", "b.jpg"]) = .ok ([], 0) :=
  ⟨⟨by decide, by decide, by decide, by decide⟩, by
    have h := dataset_files_no_separator "monet"
      "../datasets/art/Claude Monet/dataset.txt" (fun _ => ["a.jpg", "b.jpg"])
      (by decide) (by decide) (by decide) (by decide)
    exact h⟩

/-- C9: when `load` is called with batch `None`, below 1, or above the
split size, the batch size is silently replaced by the full split size and
the pipeline yields the entire split as one batch. -/
theorem load_batch_coerced {α : Type} (batch : Option Int) (images : List α)
    (hb : batch = none ∨
          ∃ v, batch = some v ∧ (v < 1 ∨ (images.length : Int) < v))
    (hne : images ≠ []) :
    effectiveBatch batch images.length = images.length ∧
    loadBatched batch images = [images] := by
  have heff : effectiveBatch batch images.length = images.length := by
    rcases hb with h | ⟨v, hv, hcase⟩
    · rw [h]; rfl
    · rw [hv]
      show (if v == 0 || v < 1 || v > (images.length : Int) then images.length
            else v.toNat) = images.length
      rw [if_pos]
      rcases hcase with h | h
      · simp only [Bool.or_eq_true, decide_eq_true_eq, beq_iff_eq]
        exact Or.inl (Or.inr h)
      · simp only [Bool.or_eq_true, decide_eq_true_eq, beq_iff_eq]
        exact Or.inr h
  refine ⟨heff, ?_⟩
  rw [loadBatched, heff]
  exact batchChunks_self images hne

theorem load_batch_coerced_witness :
    ((some 5 : Option Int) = none ∨
     ∃ v, (some 5 : Option Int) = some v ∧
       (v < 1 ∨ (([10, 20] : List Int).length : Int) < v)) ∧
    (effectiveBatch (some 5) ([10, 20] : List Int).length = 2 ∧
     loadBatched (some 5) ([10, 20] : List Int) = [[10, 20]]) :=
  ⟨Or.inr ⟨5, rfl, Or.inr (by decide)⟩,
   load_batch_coerced (some 5) ([10, 20] : List Int)
     (Or.inr ⟨5, rfl, Or.inr (by decide)⟩) (by decide)⟩

/-! ## nets.py: network topologies, modelled on tensor shapes

The building blocks (`BaseLayer`, `GeneralConvBlock`,
`GeneralConvTransposeBlock`, `ResNetBlock`, `InstanceNormalization`) live
in `layers.py`, which is not among the sources; their effect on shapes is
modelled from the spec (§4.2, §4.3, §2) and from the standard TensorFlow
semantics of `tf.keras.layers.Conv2D`. A `BaseLayer` applies its
`layers_stack` in order, so a network is a list of layers folded over the
input shape. -/

/-- Shape (height, width, channels) of one image of a batch. -/
structure Shape where
  h : Nat
  w : Nat
  c : Nat
deriving DecidableEq

/-- Output length of a dimension under `padding same` convolution with
the given stride (TensorFlow: ceiling division). -/
def convSameDim (stride n : Nat) : Nat := (n + stride - 1) / stride

/-- Output length of a dimension under a fixed numeric pad `p` followed by
a valid convolution with kernel `k` and stride `s`:
`floor((n + 2p - k) / s) + 1`. Modelled from the spec (§4.2): the
`GeneralConvBlock` of the missing `layers.py` supports a fixed numeric
pad. -/
def convPadDim (k s p n : Nat) : Nat := (n + 2 * p + s - k) / s

/-- One stage of a `layers_stack`, with the arguments that determine its
output shape. -/
inductive Layer where
  /-- `tf.keras.layers.Conv2D` with `padding same`. -/
  | conv2dSame (filters kernel stride : Nat)
  /-- `GeneralConvBlock` with a numeric `pad` (stride 1 in the sources).
  Modelled from the spec (§4.2): fixed numeric pad, then convolution. -/
  | convPad (filters kernel stride pad : Nat)
  /-- `GeneralConvTransposeBlock`. Modelled from the spec (§4.5): a
  transposed-convolution block with stride `s` multiplies the spatial
  size by `s` ("double spatial size" for stride 2). -/
  | convTransposeSame (filters kernel stride : Nat)
  /-- `InstanceNormalization`. Modelled from the spec (§2): per-instance
  feature normalization, shape preserving. -/
  | instanceNorm
  /-- `tf.keras.layers.LeakyReLU`, shape preserving. -/
  | leakyReLU
  /-- `tf.keras.activations.tanh`, shape preserving. -/
  | tanhAct
  /-- `lambda x: tf.identity x`, shape preserving. -/
  | identityLayer
  /-- `ResNetBlock`. Modelled from the spec (§4.3): both sub-blocks
  preserve spatial size and channel count, and the skip addition requires
  identical shapes, so the block preserves its input shape. -/
  | resNetBlock (filters : Nat)

/-- Shape semantics of one layer. -/
def Layer.outShape : Layer → Shape → Shape
  | .conv2dSame f _ s, sh => ⟨convSameDim s sh.h, convSameDim s sh.w, f⟩
  | .convPad f k s p, sh => ⟨convPadDim k s p sh.h, convPadDim k s p sh.w, f⟩
  | .convTransposeSame f _ s, sh => ⟨sh.h * s, sh.w * s, f⟩
  | .instanceNorm, sh => sh
  | .leakyReLU, sh => sh
  | .tanhAct, sh => sh
  | .identityLayer, sh => sh
  | .resNetBlock _, sh => sh

/-- Output shape of a `BaseLayer`: its `layers_stack` applied in order. -/
def netOutShape (stack : List Layer) (s : Shape) : Shape :=
  stack.foldl (fun sh l => l.outShape sh) s

/-- The `for i in range(n)` loop of `Discriminator.build`: each iteration
doubles `filters` and appends convolution, normalization, activation. -/
def discriminatorBlocks : Nat → Nat → List Layer
  | 0, _ => []
  | n + 1, filters =>
      [.conv2dSame (filters * 2) 4 2, .instanceNorm, .leakyReLU] ++
        discriminatorBlocks n (filters * 2)

/-- `Discriminator.build` (`nets.py`): input block (stride-2 convolution,
LeakyReLU), three doubling blocks, output block (stride-1 convolution to
1 filter, identity). -/
def discriminatorStack : List Layer :=
  [.conv2dSame 64 4 2, .leakyReLU] ++
    discriminatorBlocks 3 64 ++
    [.conv2dSame 1 4 1, .identityLayer]

/-- `Generator.Encoding.build` (`nets.py`). -/
def encodingStack : List Layer :=
  [.convPad 64 7 1 3, .conv2dSame 128 3 2, .conv2dSame 256 3 2]

/-- `Generator.Transformation.build` (`nets.py`): `resnet_blocks = 9`
residual blocks of 256 filters. -/
def transformationStack : List Layer :=
  List.replicate 9 (.resNetBlock 256)

/-- `Generator.Decoding.build` (`nets.py`). -/
def decodingStack : List Layer :=
  [.convTransposeSame 128 3 2, .convTransposeSame 64 3 2,
   .convPad 3 7 1 3, .tanhAct]

/-- `Generator.build` (`nets.py`): encoding, transformation, decoding. -/
def generatorStack : List Layer :=
  encodingStack ++ transformationStack ++ decodingStack

/-- Ceiling division by 2, the effect of one stride-2 `padding same`
convolution on a spatial dimension. -/
def ceilHalf (n : Nat) : Nat := (n + 1) / 2

/-- C3 counterexample: on a 256×256 input the discriminator's output map
is 16×16, not the 32×32 that `input / 2^3` would give — the input block is
a fourth stride-2 convolution. -/
theorem discriminator_not_div8 :
    netOutShape discriminatorStack ⟨256, 256, 3⟩ ≠ ⟨256 / 2 ^ 3, 256 / 2 ^ 3, 1⟩ := by
  decide

/-- C3 (amended): the discriminator output has exactly 1 channel and
spatial size equal to the input spatial size halved (with ceiling) four
times — four stride-2 blocks, the initial block included — hence
`input / 2^4` whenever the input size is a multiple of 16. -/
theorem discriminator_output_shape (h w c : Nat) :
    netOutShape discriminatorStack ⟨h, w, c⟩ =
      ⟨ceilHalf (ceilHalf (ceilHalf (ceilHalf h))),
       ceilHalf (ceilHalf (ceilHalf (ceilHalf w))), 1⟩ ∧
    (16 ∣ h → 16 ∣ w →
      netOutShape discriminatorStack ⟨h, w, c⟩ = ⟨h / 16, w / 16, 1⟩) := by
  have hgen : netOutShape discriminatorStack ⟨h, w, c⟩ =
      ⟨ceilHalf (ceilHalf (ceilHalf (ceilHalf h))),
       ceilHalf (ceilHalf (ceilHalf (ceilHalf w))), 1⟩ := by
    simp [netOutShape, discriminatorStack, discriminatorBlocks, Layer.outShape,
      convSameDim, ceilHalf]
  refine ⟨hgen, fun ⟨hk, hhk⟩ ⟨wk, hwk⟩ => ?_⟩
  rw [hgen, hhk, hwk]
  have e1 : ∀ k : Nat, ceilHalf (ceilHalf (ceilHalf (ceilHalf (16 * k)))) = k := by
    intro k
    simp only [ceilHalf]
    omega
  rw [e1, e1]
  congr 1 <;> omega

theorem discriminator_output_shape_witness :
    (16 ∣ 256 ∧ 16 ∣ 256) ∧
    netOutShape discriminatorStack ⟨256, 256, 3⟩ = ⟨256 / 16, 256 / 16, 1⟩ :=
  ⟨⟨by decide, by decide⟩,
   (discriminator_output_shape 256 256 3).2 (by decide) (by decide)⟩

/-- C4 counterexample: on a 6×6 input the generator outputs an 8×8 image
(stride-2 downsampling rounds 3 up to 2, decoding doubles twice), so the
output shape is not the input shape. -/
theorem generator_not_shape_preserving :
    netOutShape generatorStack ⟨6, 6, 3⟩ ≠ ⟨6, 6, 3⟩ := by
  decide

/-- C4 (amended): through the encoding (64→128→256, stride 1 then two
stride-2 blocks), nine shape-preserving residual blocks at 256 channels,
and the decoding (two stride-2 transposed-convolution blocks 256→128→64,
a final convolution to 3 channels, tanh), the generator output has 3
channels and spatial size `4 * ceil(ceil(h/2)/2)`; it equals the input
shape exactly when height and width are multiples of 4 (as the 256×256
preprocessed inputs are). -/
theorem generator_output_shape (h w : Nat) :
    netOutShape generatorStack ⟨h, w, 3⟩ =
      ⟨4 * ceilHalf (ceilHalf h), 4 * ceilHalf (ceilHalf w), 3⟩ ∧
    (4 ∣ h → 4 ∣ w → netOutShape generatorStack ⟨h, w, 3⟩ = ⟨h, w, 3⟩) := by
  have hgen : netOutShape generatorStack ⟨h, w, 3⟩ =
      ⟨4 * ceilHalf (ceilHalf h), 4 * ceilHalf (ceilHalf w), 3⟩ := by
    simp only [netOutShape, generatorStack, encodingStack, transformationStack,
      decodingStack, List.replicate, List.append_assoc, List.cons_append,
      List.nil_append, List.foldl_cons, List.foldl_nil, Layer.outShape,
      convSameDim, convPadDim, ceilHalf]
    congr 1 <;> omega
  refine ⟨hgen, fun ⟨hk, hhk⟩ ⟨wk, hwk⟩ => ?_⟩
  rw [hgen, hhk, hwk]
  have e1 : ∀ k : Nat, 4 * ceilHalf (ceilHalf (4 * k)) = 4 * k := by
    intro k
    simp only [ceilHalf]
    omega
  rw [e1, e1]

theorem generator_output_shape_witness :
    (4 ∣ 256 ∧ 4 ∣ 256) ∧
    netOutShape generatorStack ⟨256, 256, 3⟩ = ⟨256, 256, 3⟩ :=
  ⟨⟨by decide, by decide⟩,
   (generator_output_shape 256 256).2 (by decide) (by decide)⟩

/-! ## nets.py: `CycleGAN.call`, on abstract tensors

The forward pass is embedded over an abstract tensor type `T` and loss
type `L`: the sub-networks (whose parameters are baked into the
functions), the two losses, and the batch-axis concatenation are fields of
a structure, so every theorem quantifies over all parameter states. -/

/-- The members created by `CycleGAN.build`, plus `tf.concat` on the batch
axis. -/
structure CycleGANNets (T L : Type) where
  preprocessing : T → T
  generator_AB : T → T
  generator_BA : T → T
  discriminator_A : T → T
  discriminator_B : T → T
  discriminator_loss : T → L
  generator_loss : T → L
  concat : T → T → T

/-- The six outputs of `CycleGAN.call`, in the order of the returned
tuple. -/
structure Outputs (T L : Type) where
  fake_A : T
  fake_B : T
  discriminator_A_loss : L
  discriminator_B_loss : L
  generator_AB_loss : L
  generator_BA_loss : L
deriving DecidableEq

/-- `CycleGAN.call` (`nets.py` lines 50–92), statement by statement.
`tf.identity` only renames a tensor and is the identity function. -/
def CycleGAN_call (n : CycleGANNets T L) (inputs : T × T) : Outputs T L :=
  let images_A := inputs.1
  let images_B := inputs.2
  let images_A := n.preprocessing images_A
  let images_B := n.preprocessing images_B
  let fake_B := n.generator_AB images_A
  let fake_A := n.generator_BA images_B
  let all_for_A := n.concat images_A fake_A
  let decision_A := n.discriminator_A all_for_A
  let all_for_B := n.concat images_B fake_B
  let decision_B := n.discriminator_B all_for_B
  let discriminator_A_loss := n.discriminator_loss decision_A
  let discriminator_B_loss := n.discriminator_loss decision_B
  let generator_AB_loss := n.generator_loss decision_B
  let generator_BA_loss := n.generator_loss decision_A
  ⟨fake_A, fake_B, discriminator_A_loss, discriminator_B_loss,
   generator_AB_loss, generator_BA_loss⟩

/-- The forward pass as the spec's claim words it: preprocess both
batches, translate with each generator, judge `[real, fake]`
concatenations with each domain's discriminator, derive discriminator
losses from each decision, judge each generator by the discriminator of
its output domain, and return the six values in the stated order. -/
def CycleGAN_call_spec (n : CycleGANNets T L) (inputs : T × T) : Outputs T L :=
  let real_A := n.preprocessing inputs.1
  let real_B := n.preprocessing inputs.2
  let fake_B := n.generator_AB real_A
  let fake_A := n.generator_BA real_B
  let decision_A := n.discriminator_A (n.concat real_A fake_A)
  let decision_B := n.discriminator_B (n.concat real_B fake_B)
  { fake_A := fake_A
    fake_B := fake_B
    discriminator_A_loss := n.discriminator_loss decision_A
    discriminator_B_loss := n.discriminator_loss decision_B
    generator_AB_loss := n.generator_loss decision_B
    generator_BA_loss := n.generator_loss decision_A }

/-- C2: for every parameter state (any functions for the sub-networks) and
every input batch pair, `CycleGAN.call` computes exactly the composition
the spec claims, returning
`(fake_A, fake_B, discriminator_A_loss, discriminator_B_loss,
generator_AB_loss, generator_BA_loss)` in that order. -/
theorem CycleGAN_call_eq_spec {T L : Type} (n : CycleGANNets T L)
    (inputs : T × T) : CycleGAN_call n inputs = CycleGAN_call_spec n inputs :=
  rfl

/-! ## models.py: metrics parsing and the training step

The training step is embedded over abstract types: `V` a parameter group's
value, `B` an input batch, `T`/`L` tensors and losses, `G` a gradient, `OS`
an optimizer's internal state. `tf.GradientTape` is a resource recording
the parameter state of the forward pass; `tape.gradient` reads that
recorded state and fails on a second use of a non-persistent tape. The
step threads an event log so that the order and number of forward passes,
gradient extractions and optimizer applications is part of the result. -/

/-- `models.model_metrics` as set by `_set_model()`: the names zipped with
the model outputs, `None` for the two image outputs. -/
def model_metrics : List (Option String) :=
  [none, none, some "dA_loss", some "dB_loss", some "gAB_loss", some "gBA_loss"]

/-- `models.get_model_metrics`: name ↦ output for the named positions
(`{name: val for name, val in zip(names, outputs) if name}`). -/
def get_model_metrics (outputs : List α) : List (String × α) :=
  (model_metrics.zip outputs).filterMap fun p => p.1.map fun name => (name, p.2)

/-- Python `d[k]` on the metrics dict: the value, or a `KeyError`. -/
def dictGet (d : List (String × α)) (k : String) : Except String α :=
  match d.lookup k with
  | some v => .ok v
  | none => .error ("KeyError: " ++ k)

/-- The model outputs as the Python tuple handed to `get_model_metrics`
(images and losses are all tensors; the sum keeps the two kinds apart). -/
def Outputs.toValueList (o : Outputs T L) : List (T ⊕ L) :=
  [.inl o.fake_A, .inl o.fake_B, .inr o.discriminator_A_loss,
   .inr o.discriminator_B_loss, .inr o.generator_AB_loss,
   .inr o.generator_BA_loss]

/-- The four parameter groups of `CycleGAN_trainer` (`self.params`). -/
inductive GroupTag where
  | dA | dB | gAB | gBA
deriving DecidableEq

/-- The four groups' values (`V` is one group's parameter vector). -/
structure ParamGroups (V : Type) where
  dA : V
  dB : V
  gAB : V
  gBA : V
deriving DecidableEq

/-- `tf.GradientTape`: the parameter state recorded while tracing the
forward pass, the `persistent` flag, and how many times `gradient` has
been called on it. -/
structure GradientTape (V : Type) where
  recorded : ParamGroups V
  persistent : Bool
  gradCalls : Nat

/-- `tape.gradient(loss, params[g])`: evaluated against the parameter
state recorded during the forward pass; a non-persistent tape errors on a
second call. `gradFn σ loss g` is the mathematical gradient of `loss`
w.r.t. group `g` at state `σ`. -/
def tapeGradient (gradFn : ParamGroups V → (T ⊕ L) → GroupTag → G)
    (t : GradientTape V) (loss : T ⊕ L) (g : GroupTag) :
    Except String (G × GradientTape V) :=
  if t.persistent = false ∧ 1 ≤ t.gradCalls then
    .error "GradientTape.gradient can only be called once on non-persistent tapes."
  else
    .ok (gradFn t.recorded loss g, { t with gradCalls := t.gradCalls + 1 })

/-- One observable action of the training step. -/
inductive StepEvent where
  | forwardPass
  | gradient (lossName : String) (group : GroupTag)
  | applyGradients (group : GroupTag)
deriving DecidableEq

/-- Result of one training step: the returned outputs, the updated
parameter groups, the updated optimizer states, and the event log. -/
structure StepResult (V T L OS : Type) where
  outputs : Outputs T L
  params : ParamGroups V
  optStates : GroupTag → OS
  events : List StepEvent

/-- `models._cycleGAN_trainer_step`: forward pass under a persistent
`GradientTape`, `losses = get_model_metrics(outputs)`, four
`tape.gradient` calls, four `optimizer.apply_gradients` calls, return the
outputs. `cgan σ b` is the composite model's forward pass at parameter
state `σ`; `optApply g s grad v` is optimizer `g`'s update of its state
`s` and its group value `v`. -/
def cycleGAN_trainer_step
    (cgan : ParamGroups V → B → Outputs T L)
    (gradFn : ParamGroups V → (T ⊕ L) → GroupTag → G)
    (optApply : GroupTag → OS → G → V → OS × V)
    (optState : GroupTag → OS)
    (σ : ParamGroups V) (input_batch : B) :
    Except String (StepResult V T L OS) := do
  let tape : GradientTape V := ⟨σ, true, 0⟩
  let outputs := cgan σ input_batch
  let ev := [StepEvent.forwardPass]
  let losses := get_model_metrics outputs.toValueList
  let ldA ← dictGet losses "dA_loss"
  let (gradient_dA, tape) ← tapeGradient gradFn tape ldA .dA
  let ev := ev ++ [.gradient "dA_loss" .dA]
  let ldB ← dictGet losses "dB_loss"
  let (gradient_dB, tape) ← tapeGradient gradFn tape ldB .dB
  let ev := ev ++ [.gradient "dB_loss" .dB]
  let lgAB ← dictGet losses "gAB_loss"
  let (gradient_gAB, tape) ← tapeGradient gradFn tape lgAB .gAB
  let ev := ev ++ [.gradient "gAB_loss" .gAB]
  let lgBA ← dictGet losses "gBA_loss"
  let (gradient_gBA, _tape) ← tapeGradient gradFn tape lgBA .gBA
  let ev := ev ++ [.gradient "gBA_loss" .gBA]
  let (sdA, vdA) := optApply .dA (optState .dA) gradient_dA σ.dA
  let ev := ev ++ [.applyGradients .dA]
  let (sdB, vdB) := optApply .dB (optState .dB) gradient_dB σ.dB
  let ev := ev ++ [.applyGradients .dB]
  let (sgAB, vgAB) := optApply .gAB (optState .gAB) gradient_gAB σ.gAB
  let ev := ev ++ [.applyGradients .gAB]
  let (sgBA, vgBA) := optApply .gBA (optState .gBA) gradient_gBA σ.gBA
  let ev := ev ++ [.applyGradients .gBA]
  return { outputs := outputs
           params := ⟨vdA, vdB, vgAB, vgBA⟩
           optStates := fun g => match g with
             | .dA => sdA | .dB => sdB | .gAB => sgAB | .gBA => sgBA
           events := ev }

/-- The loss that judges each parameter group, as `losses[...]` pairs them
in `_cycleGAN_trainer_step`. -/
def Outputs.lossOfGroup (o : Outputs T L) : GroupTag → (T ⊕ L)
  | .dA => .inr o.discriminator_A_loss
  | .dB => .inr o.discriminator_B_loss
  | .gAB => .inr o.generator_AB_loss
  | .gBA => .inr o.generator_BA_loss

/-- C1: for every parameter state, optimizer and input batch pair, the
training step succeeds (the tape is persistent, so all four gradient
extractions read the one retained trace), runs the forward pass exactly
once, computes the gradient of each named loss w.r.t. its own group only —
all four at the pre-step parameter state `σ`, with no second forward
event — applies each gradient through its own optimizer to its own group,
and returns the six forward-pass outputs. -/
theorem trainer_step_protocol {V B T L G OS : Type}
    (cgan : ParamGroups V → B → Outputs T L)
    (gradFn : ParamGroups V → (T ⊕ L) → GroupTag → G)
    (optApply : GroupTag → OS → G → V → OS × V)
    (optState : GroupTag → OS)
    (σ : ParamGroups V) (input_batch : B) :
    cycleGAN_trainer_step cgan gradFn optApply optState σ input_batch =
      .ok { outputs := cgan σ input_batch
            params := ⟨(optApply .dA (optState .dA)
                         (gradFn σ ((cgan σ input_batch).lossOfGroup .dA) .dA)
                         σ.dA).2,
                       (optApply .dB (optState .dB)
                         (gradFn σ ((cgan σ input_batch).lossOfGroup .dB) .dB)
                         σ.dB).2,
                       (optApply .gAB (optState .gAB)
                         (gradFn σ ((cgan σ input_batch).lossOfGroup .gAB) .gAB)
                         σ.gAB).2,
                       (optApply .gBA (optState .gBA)
                         (gradFn σ ((cgan σ input_batch).lossOfGroup .gBA) .gBA)
                         σ.gBA).2⟩
            optStates := fun g => match g with
              | .dA => (optApply .dA (optState .dA)
                  (gradFn σ ((cgan σ input_batch).lossOfGroup .dA) .dA) σ.dA).1
              | .dB => (optApply .dB (optState .dB)
                  (gradFn σ ((cgan σ input_batch).lossOfGroup .dB) .dB) σ.dB).1
              | .gAB => (optApply .gAB (optState .gAB)
                  (gradFn σ ((cgan σ input_batch).lossOfGroup .gAB) .gAB) σ.gAB).1
              | .gBA => (optApply .gBA (optState .gBA)
                  (gradFn σ ((cgan σ input_batch).lossOfGroup .gBA) .gBA) σ.gBA).1
            events := [.forwardPass,
                       .gradient "dA_loss" .dA, .gradient "dB_loss" .dB,
                       .gradient "gAB_loss" .gAB, .gradient "gBA_loss" .gBA,
                       .applyGradients .dA, .applyGradients .dB,
                       .applyGradients .gAB, .applyGradients .gBA] } ∧
    ([StepEvent.forwardPass,
      .gradient "dA_loss" .dA, .gradient "dB_loss" .dB,
      .gradient "gAB_loss" .gAB, .gradient "gBA_loss" .gBA,
      .applyGradients .dA, .applyGradients .dB,
      .applyGradients .gAB, .applyGradients .gBA].count StepEvent.forwardPass
     = 1) :=
  ⟨rfl, rfl⟩

/-! ## models.py: order-independence of the four optimizer updates -/

/-- One `optimizer.apply_gradients` call for group `g`: updates group
`g`'s value (and nothing else) from its own optimizer state and gradient.
`grads` is the gradient of each group's loss, computed before any update
is applied. -/
def applyGroupUpdate (optApply : GroupTag → OS → G → V → OS × V)
    (optState : GroupTag → OS) (grads : GroupTag → G) :
    GroupTag → ParamGroups V → ParamGroups V
  | .dA, σ => { σ with dA := (optApply .dA (optState .dA) (grads .dA) σ.dA).2 }
  | .dB, σ => { σ with dB := (optApply .dB (optState .dB) (grads .dB) σ.dB).2 }
  | .gAB, σ =>
      { σ with gAB := (optApply .gAB (optState .gAB) (grads .gAB) σ.gAB).2 }
  | .gBA, σ =>
      { σ with gBA := (optApply .gBA (optState .gBA) (grads .gBA) σ.gBA).2 }

/-- The four `apply_gradients` calls executed in the given order. -/
def applyUpdatesIn (optApply : GroupTag → OS → G → V → OS × V)
    (optState : GroupTag → OS) (grads : GroupTag → G)
    (order : List GroupTag) (σ : ParamGroups V) : ParamGroups V :=
  order.foldl (fun s g => applyGroupUpdate optApply optState grads g s) σ

/-- The post-step parameter state of a training-step result (the state
itself on the never-taken error branch). -/
def stepParamsOf (res : Except String (StepResult V T L OS))
    (σ : ParamGroups V) : ParamGroups V :=
  match res with
  | .ok r => r.params
  | .error _ => σ

theorem applyGroupUpdate_comm (optApply : GroupTag → OS → G → V → OS × V)
    (optState : GroupTag → OS) (grads : GroupTag → G)
    (g₁ g₂ : GroupTag) (σ : ParamGroups V) :
    applyGroupUpdate optApply optState grads g₂
        (applyGroupUpdate optApply optState grads g₁ σ) =
      applyGroupUpdate optApply optState grads g₁
        (applyGroupUpdate optApply optState grads g₂ σ) := by
  cases g₁ <;> cases g₂ <;> rfl

theorem foldl_perm_of_comm {β γ : Type} (f : γ → β → γ)
    (hcomm : ∀ c b₁ b₂, f (f c b₁) b₂ = f (f c b₂) b₁)
    {l₁ l₂ : List β} (h : l₁.Perm l₂) :
    ∀ c, l₁.foldl f c = l₂.foldl f c := by
  induction h with
  | nil => intro c; rfl
  | cons x _ ih => intro c; simp only [List.foldl_cons]; exact ih (f c x)
  | swap x y l => intro c; simp only [List.foldl_cons]; rw [hcomm]
  | trans _ _ ih₁ ih₂ => intro c; rw [ih₁ c, ih₂ c]

/-- C5: all four gradients are taken at the pre-step parameter state `σ`
(the state `grads` is computed from), each update touches only its own
group, and applying the four updates in any permutation of
`[dA, dB, gAB, gBA]` produces exactly the post-step parameter state of
`_cycleGAN_trainer_step`. -/
theorem trainer_updates_order_independent {V B T L G OS : Type}
    (cgan : ParamGroups V → B → Outputs T L)
    (gradFn : ParamGroups V → (T ⊕ L) → GroupTag → G)
    (optApply : GroupTag → OS → G → V → OS × V)
    (optState : GroupTag → OS)
    (σ : ParamGroups V) (input_batch : B) (order : List GroupTag)
    (hperm : order.Perm [GroupTag.dA, .dB, .gAB, .gBA]) :
    applyUpdatesIn optApply optState
        (fun g => gradFn σ ((cgan σ input_batch).lossOfGroup g) g) order σ =
      stepParamsOf
        (cycleGAN_trainer_step cgan gradFn optApply optState σ input_batch)
        σ := by
  rw [applyUpdatesIn,
    foldl_perm_of_comm _
      (fun c b₁ b₂ => applyGroupUpdate_comm optApply optState _ b₁ b₂ c) hperm σ]
  rfl

theorem trainer_updates_order_independent_witness :
    ([GroupTag.gBA, .gAB, .dB, .dA].Perm [GroupTag.dA, .dB, .gAB, .gBA]) ∧
    applyUpdatesIn
        (fun _ s grad v => (s + grad, v - grad))
        (fun _ => (0 : Int))
        (fun g => (fun (σ' : ParamGroups Int) _ _ =>
          σ'.dA + σ'.dB) (⟨1, 2, 3, 4⟩ : ParamGroups Int)
            ((((fun (σ' : ParamGroups Int) (b : Int) =>
              (⟨b, b + 1, σ'.dA, σ'.dB, σ'.gAB, σ'.gBA⟩ : Outputs Int Int))
                ⟨1, 2, 3, 4⟩ 0).lossOfGroup g)) g)
        [GroupTag.gBA, .gAB, .dB, .dA] ⟨1, 2, 3, 4⟩ =
      stepParamsOf
        (cycleGAN_trainer_step
          (fun (σ' : ParamGroups Int) (b : Int) =>
            (⟨b, b + 1, σ'.dA, σ'.dB, σ'.gAB, σ'.gBA⟩ : Outputs Int Int))
          (fun σ' _ _ => σ'.dA + σ'.dB)
          (fun _ s grad v => (s + grad, v - grad))
          (fun _ => (0 : Int)) ⟨1, 2, 3, 4⟩ 0)
        ⟨1, 2, 3, 4⟩ :=
  ⟨by decide,
   trainer_updates_order_independent
     (fun (σ' : ParamGroups Int) (b : Int) =>
       (⟨b, b + 1, σ'.dA, σ'.dB, σ'.gAB, σ'.gBA⟩ : Outputs Int Int))
     (fun σ' _ _ => σ'.dA + σ'.dB)
     (fun _ s grad v => (s + grad, v - grad))
     (fun _ => (0 : Int)) ⟨1, 2, 3, 4⟩ 0
     [GroupTag.gBA, .gAB, .dB, .dA] (by decide)⟩

/-! ## models.py / nets.py: the parameter partition

Keras ownership: every `tf.Variable` is created by exactly one layer, so a
variable is identified by the owning sub-layer of the `CycleGAN` layer and
its index there. The number of weights of each network is left abstract
(`count`); the layers missing from the sources are modelled from the spec
where marked. -/

/-- The sub-layers created by `CycleGAN.build` (`nets.py` lines 28–47). -/
inductive NetTag where
  | preprocessing
  | generator_AB
  | generator_BA
  | discriminator_A
  | discriminator_B
  | discriminator_loss_layer
  | generator_loss_layer
deriving DecidableEq

/-- A trainable variable: owning sub-layer and weight index. -/
abbrev TrainVar := NetTag × Nat

/-- `trainable_variables` of one sub-layer. Modelled from the spec for
the classes missing from the sources: `ImagePreprocessing` is a pure
resampling stage with no learned parameters (§4.1), and the two loss
layers are functions of the discriminator logits with no parameters
(§4.6); the four networks own `count n` weights each. -/
def layerTrainableVars (count : NetTag → Nat) : NetTag → List TrainVar
  | .preprocessing => []
  | .discriminator_loss_layer => []
  | .generator_loss_layer => []
  | n => (List.range (count n)).map fun i => (n, i)

/-- The sub-layers of the `CycleGAN` layer, in creation order. -/
def cycleGANSubLayers : List NetTag :=
  [.preprocessing, .generator_AB, .generator_BA,
   .discriminator_A, .discriminator_B,
   .discriminator_loss_layer, .generator_loss_layer]

/-- `trainable_variables` of the composite `CycleGAN` layer: Keras
collects the variables of all sub-layers. -/
def cycleGANTrainableVars (count : NetTag → Nat) : List TrainVar :=
  (cycleGANSubLayers.map (layerTrainableVars count)).flatten

/-- `CycleGAN_trainer.__init__` (`models.py` lines 131–136):
`self.params` maps each group to its network's `trainable_variables`. -/
def trainerParams (count : NetTag → Nat) : GroupTag → List TrainVar
  | .dA => layerTrainableVars count .discriminator_A
  | .dB => layerTrainableVars count .discriminator_B
  | .gAB => layerTrainableVars count .generator_AB
  | .gBA => layerTrainableVars count .generator_BA

/-- `optimizer.apply_gradients(zip(gradient, params[g]))` at the level of
variable values: every variable of the group is updated in place, every
other variable is untouched. -/
def applyGradientsVals (group : List TrainVar) (upd : TrainVar → Int → Int)
    (vals : TrainVar → Int) : TrainVar → Int :=
  fun v => if v ∈ group then upd v (vals v) else vals v

/-- The trainer's state: the stored parameter groups (`self.params`) and
the current value of every variable. -/
structure TrainerValState where
  groups : GroupTag → List TrainVar
  vals : TrainVar → Int

/-- The four `apply_gradients` calls of `_cycleGAN_trainer_step` as a
mutation of the trainer state: values change, the groups are only read.
`upd g v x` is the optimizer-and-gradient update of variable `v` of group
`g` at value `x`. -/
def trainerValStep (upd : GroupTag → TrainVar → Int → Int)
    (s : TrainerValState) : TrainerValState :=
  { groups := s.groups
    vals := applyGradientsVals (s.groups .gBA) (upd .gBA)
             (applyGradientsVals (s.groups .gAB) (upd .gAB)
              (applyGradientsVals (s.groups .dB) (upd .dB)
               (applyGradientsVals (s.groups .dA) (upd .dA) s.vals))) }

/-- The sub-network whose `trainable_variables` each group stores. -/
def netOfGroup : GroupTag → NetTag
  | .dA => .discriminator_A
  | .dB => .discriminator_B
  | .gAB => .generator_AB
  | .gBA => .generator_BA

theorem trainerParams_eq (count : NetTag → Nat) (g : GroupTag) :
    trainerParams count g = layerTrainableVars count (netOfGroup g) := by
  cases g <;> rfl

theorem mem_layerTrainableVars (count : NetTag → Nat) (n : NetTag)
    (v : TrainVar) (h : v ∈ layerTrainableVars count n) : v.1 = n := by
  cases n <;> simp only [layerTrainableVars] at h <;>
    first
      | exact absurd h (List.not_mem_nil v)
      | (obtain ⟨i, _, hi⟩ := List.mem_map.mp h
         rw [← hi])

theorem perm_swap_halves {α : Type} (A B C D : List α) :
    (A ++ (B ++ (C ++ D))).Perm (C ++ D ++ A ++ B) := by
  have h1 : A ++ (B ++ (C ++ D)) = (A ++ B) ++ (C ++ D) := by
    rw [List.append_assoc]
  have h2 : C ++ D ++ A ++ B = (C ++ D) ++ (A ++ B) :=
    List.append_assoc (C ++ D) A B
  rw [h1, h2]
  exact List.perm_append_comm

/-- C6: the four parameter groups are the trainable variables of the four
sub-networks; they are pairwise disjoint, together they are exactly the
composite model's trainable-variable set, and a training step changes
variable values only — the stored groups are preserved unchanged. -/
theorem trainer_param_partition (count : NetTag → Nat) :
    (∀ g g' : GroupTag, g ≠ g' →
      (trainerParams count g).Disjoint (trainerParams count g')) ∧
    (cycleGANTrainableVars count).Perm
      (trainerParams count .dA ++ trainerParams count .dB ++
       trainerParams count .gAB ++ trainerParams count .gBA) ∧
    (∀ upd s, (trainerValStep upd s).groups = s.groups) := by
  refine ⟨?_, ?_, fun _ _ => rfl⟩
  · intro g g' hne v hv hv'
    rw [trainerParams_eq] at hv hv'
    have h1 := mem_layerTrainableVars count (netOfGroup g) v hv
    have h2 := mem_layerTrainableVars count (netOfGroup g') v hv'
    apply hne
    have hnet : netOfGroup g = netOfGroup g' := by rw [← h1, ← h2]
    cases g <;> cases g' <;> first | rfl | exact absurd hnet (by simp [netOfGroup])
  · have hflat : cycleGANTrainableVars count =
        layerTrainableVars count .generator_AB ++
          (layerTrainableVars count .generator_BA ++
           (layerTrainableVars count .discriminator_A ++
            layerTrainableVars count .discriminator_B)) := by
      show layerTrainableVars count .preprocessing ++
        (layerTrainableVars count .generator_AB ++
         (layerTrainableVars count .generator_BA ++
          (layerTrainableVars count .discriminator_A ++
           (layerTrainableVars count .discriminator_B ++
            (layerTrainableVars count .discriminator_loss_layer ++
             (layerTrainableVars count .generator_loss_layer ++ [])))))) = _
      simp only [layerTrainableVars, List.nil_append, List.append_nil]
    rw [hflat, trainerParams_eq, trainerParams_eq, trainerParams_eq,
      trainerParams_eq]
    exact perm_swap_halves _ _ _ _

theorem trainer_param_partition_witness :
    (GroupTag.dA ≠ GroupTag.dB) ∧
    (trainerParams (fun _ => 2) .dA).Disjoint (trainerParams (fun _ => 2) .dB) ∧
    (cycleGANTrainableVars (fun _ => 2)).Perm
      (trainerParams (fun _ => 2) .dA ++ trainerParams (fun _ => 2) .dB ++
       trainerParams (fun _ => 2) .gAB ++ trainerParams (fun _ => 2) .gBA) :=
  ⟨by decide,
   (trainer_param_partition (fun _ => 2)).1 .dA .dB (by decide),
   (trainer_param_partition (fun _ => 2)).2.1⟩

/-! ## artReCycle.py: the `train` command's training loop

The loop body (`artReCycle.py` lines 69–99) is embedded as the sequence of
actions it performs; the action type also has constructors for invoking
the trainer, computing a gradient, and updating parameters, so that their
absence is a statement about the trace and not about the vocabulary. -/

/-- An action the training loop could perform. -/
inductive TrainAction where
  /-- `print(...)` debug output. -/
  | printMsg (s : String)
  /-- The interactive `input()` pause. -/
  | awaitInput
  /-- `step_saver.new_step()` (step-counter bookkeeping). -/
  | newStep
  /-- `step_saver.new_epoch()` (epoch-counter bookkeeping). -/
  | newEpoch
  /-- A `trainer.step(...)` / optimizer-step invocation (never emitted). -/
  | trainerStep
  /-- A gradient computation (never emitted). -/
  | gradientCompute
  /-- A model-parameter update (never emitted). -/
  | paramUpdate
deriving DecidableEq

/-- The body of the inner loop of `train`: the debug print, the
interactive pause, and `step_saver.new_step()`. -/
def trainStepBody : List TrainAction :=
  [.printMsg "training step", .awaitInput, .newStep]

/-- One epoch: `steps_per_epoch` iterations of the body, then
`step_saver.new_epoch()`. -/
def trainEpochTrace : Nat → List TrainAction
  | 0 => [.newEpoch]
  | n + 1 => trainStepBody ++ trainEpochTrace n

/-- `numEpochs` epochs of the loop. -/
def trainEpochsTrace : Nat → Nat → List TrainAction
  | 0, _ => []
  | e + 1, steps => trainEpochTrace steps ++ trainEpochsTrace e steps

/-- The whole training loop of `train`: epochs
`range(step_saver.epoch, args.epochs)`, each of `steps_per_epoch` steps. -/
def trainLoopTrace (startEpoch epochs stepsPerEpoch : Nat) : List TrainAction :=
  trainEpochsTrace (epochs - startEpoch) stepsPerEpoch

/-- The actions the stubbed loop body is allowed to perform: debug output,
the interactive pause, and counter bookkeeping. -/
def TrainAction.isLoopBookkeeping : TrainAction → Bool
  | .printMsg _ => true
  | .awaitInput => true
  | .newStep => true
  | .newEpoch => true
  | .trainerStep => false
  | .gradientCompute => false
  | .paramUpdate => false

theorem trainEpochTrace_bookkeeping (steps : Nat) :
    (trainEpochTrace steps).all TrainAction.isLoopBookkeeping = true := by
  induction steps with
  | zero => rfl
  | succ n ih =>
    rw [trainEpochTrace, List.all_append, ih]
    rfl

/-- C8: for every starting epoch, epoch bound and steps-per-epoch, the
training loop's trace consists solely of debug output, interactive pauses
and counter bookkeeping: it never invokes the trainer, never computes a
gradient, and never updates a model parameter. -/
theorem train_loop_never_trains (startEpoch epochs stepsPerEpoch : Nat) :
    (trainLoopTrace startEpoch epochs stepsPerEpoch).all
        TrainAction.isLoopBookkeeping = true ∧
    (trainLoopTrace startEpoch epochs stepsPerEpoch).count
        TrainAction.trainerStep = 0 ∧
    (trainLoopTrace startEpoch epochs stepsPerEpoch).count
        TrainAction.gradientCompute = 0 ∧
    (trainLoopTrace startEpoch epochs stepsPerEpoch).count
        TrainAction.paramUpdate = 0 := by
  have hall : ∀ e steps, (trainEpochsTrace e steps).all
      TrainAction.isLoopBookkeeping = true := by
    intro e steps
    induction e with
    | zero => rfl
    | succ n ih =>
      rw [trainEpochsTrace, List.all_append, ih,
        trainEpochTrace_bookkeeping]
      rfl
  have hcount : ∀ (a : TrainAction), TrainAction.isLoopBookkeeping a = false →
      (trainLoopTrace startEpoch epochs stepsPerEpoch).count a = 0 := by
    intro a ha
    rw [List.count_eq_zero]
    intro hmem
    have := List.all_eq_true.mp
      (hall (epochs - startEpoch) stepsPerEpoch) a hmem
    rw [ha] at this
    exact absurd this (by simp)
  exact ⟨hall _ _, hcount _ rfl, hcount _ rfl, hcount _ rfl⟩
